import Mathlib

/-!
Shallow embedding of `src/sbom-analyzer.py` (paritytech-secops/sbom-analyzer).

The program enriches SBOM package records by parsing package URLs (purls),
classifying repository URLs, and querying the crates.io registry with a
bounded retry loop.  Machine strings are modelled as Lean `String`/`List Char`;
Python `None` becomes `Option`; a Python exception inside the enrichment
attempt is modelled as an explicit `raised` outcome; each HTTP interaction is
an entry of an environment (`AttemptEnv`) describing what the registry would
answer, and the requests actually issued (plus every warning-level log call)
are recorded in an event trace.

Python's `re` character class `\w` is modelled in its ASCII reading
(letters, digits, underscore); no input of the specification exercises
non-ASCII word characters.
-/

/-! ## Character classes and span (greedy run) used by the two regexes -/

/-- ASCII reading of Python regex `\w`. -/
def wordChar (c : Char) : Bool := c.isAlphanum || c = '_'

/-- Character class `[%\w/\.-]` of group 2 of `PURL_REGEX`. -/
def purlNameChar (c : Char) : Bool :=
  c = '%' || wordChar c || c = '/' || c = '.' || c = '-'

/-- Character class `[0-9a-fA-F\.%]` of group 3 of `PURL_REGEX`. -/
def purlVerChar (c : Char) : Bool :=
  c.isDigit || ('a' ≤ c && c ≤ 'f') || ('A' ≤ c && c ≤ 'F') || c = '.' || c = '%'

/-- Greedy span: the maximal prefix satisfying `p`, and the rest.  This is how
a greedy `[class]+`/`[class]*` consumes input in the two source regexes (both
are backtracking-free on their inputs: shrinking a group hands characters to a
later pattern that never rescues a failure, see the match functions below). -/
def spanP (p : Char → Bool) : List Char → List Char × List Char
  | [] => ([], [])
  | c :: cs =>
    if p c then
      let (a, b) := spanP p cs
      (c :: a, b)
    else ([], c :: cs)

/-- `$` after `.*` (no DOTALL): the leftover after the last greedily consumed
group matches `.*$` iff dropping its non-newline prefix leaves nothing or a
single final newline. -/
def dotStarDollarOk (l : List Char) : Bool :=
  match l.dropWhile (fun c => c ≠ '\n') with
  | [] => true
  | ['\n'] => true
  | _ => false

/-! ## Percent-decoding: model of `urllib.parse.unquote`

`unquote` turns maximal runs of `%HH` (two hex digits) into bytes and decodes
them as UTF-8 with `errors='replace'`; a `%` not followed by two hex digits is
kept literally.  (On malformed byte sequences our decoder emits one U+FFFD per
offending lead byte; the exact count of replacement characters on garbage
bytes is not observable by any claim.) -/

def hexVal (c : Char) : Option Nat :=
  if '0' ≤ c ∧ c ≤ '9' then some (c.toNat - '0'.toNat)
  else if 'a' ≤ c ∧ c ≤ 'f' then some (c.toNat - 'a'.toNat + 10)
  else if 'A' ≤ c ∧ c ≤ 'F' then some (c.toNat - 'A'.toNat + 10)
  else none

/-- Collect a maximal run of `%HH` escapes into bytes. -/
def collectPctBytes : List Char → List Nat × List Char
  | '%' :: h1 :: h2 :: rest =>
    match hexVal h1, hexVal h2 with
    | some a, some b =>
      let (bs, r) := collectPctBytes rest
      ((a * 16 + b) :: bs, r)
    | _, _ => ([], '%' :: h1 :: h2 :: rest)
  | l => ([], l)

def replChar : Char := Char.ofNat 0xFFFD

def isContByte (b : Nat) : Bool := 0x80 ≤ b && b < 0xC0

/-- UTF-8 decoding with replacement, fuel-indexed (fuel = list length). -/
def utf8DecodeGo : Nat → List Nat → List Char
  | 0, _ => []
  | _, [] => []
  | fuel + 1, b :: rest =>
    if b < 0x80 then Char.ofNat b :: utf8DecodeGo fuel rest
    else if 0xC2 ≤ b ∧ b ≤ 0xDF then
      match rest with
      | c1 :: r2 =>
        if isContByte c1 then
          Char.ofNat ((b - 0xC0) * 0x40 + (c1 - 0x80)) :: utf8DecodeGo fuel r2
        else replChar :: utf8DecodeGo fuel rest
      | [] => [replChar]
    else if 0xE0 ≤ b ∧ b ≤ 0xEF then
      match rest with
      | c1 :: c2 :: r3 =>
        if (isContByte c1 && isContByte c2
            && !(b = 0xE0 && c1 < 0xA0) && !(b = 0xED && 0xA0 ≤ c1)) then
          Char.ofNat ((b - 0xE0) * 0x1000 + (c1 - 0x80) * 0x40 + (c2 - 0x80))
            :: utf8DecodeGo fuel r3
        else replChar :: utf8DecodeGo fuel rest
      | _ => [replChar]
    else if 0xF0 ≤ b ∧ b ≤ 0xF4 then
      match rest with
      | c1 :: c2 :: c3 :: r4 =>
        if (isContByte c1 && isContByte c2 && isContByte c3
            && !(b = 0xF0 && c1 < 0x90) && !(b = 0xF4 && 0x90 ≤ c1)) then
          Char.ofNat ((b - 0xF0) * 0x40000 + (c1 - 0x80) * 0x1000
              + (c2 - 0x80) * 0x40 + (c3 - 0x80))
            :: utf8DecodeGo fuel r4
        else replChar :: utf8DecodeGo fuel rest
      | _ => [replChar]
    else replChar :: utf8DecodeGo fuel rest

def utf8Decode (bs : List Nat) : List Char := utf8DecodeGo bs.length bs

def unquoteGo : Nat → List Char → List Char
  | 0, _ => []
  | _, [] => []
  | fuel + 1, l =>
    match l with
    | '%' :: h1 :: h2 :: rest =>
      match hexVal h1, hexVal h2 with
      | some _, some _ =>
        let (bs, r) := collectPctBytes l
        utf8Decode bs ++ unquoteGo fuel r
      | _, _ => '%' :: unquoteGo fuel (h1 :: h2 :: rest)
    | c :: rest => c :: unquoteGo fuel rest
    | [] => []

/-- Model of `urllib.parse.unquote` (UTF-8, errors `replace`). -/
def unquote (s : String) : String := String.mk (unquoteGo s.data.length s.data)

/-! ## The two source regexes

`REPO_URL_REGEX = ^https://[\w]+\.[\w]+/([^/]+)/([^/]+)[/\w]*$`
`PURL_REGEX     = ^pkg:(\w+)/([%\w/\.-]+)@?([0-9a-fA-F\.%]*).*$`

Both are deterministic on every input: each greedy group is forced maximal
(shrinking it makes the following literal face a character it cannot match,
or hands the very same failing character to a later pattern), so a simple
left-to-right scan returns exactly the groups Python's engine captures. -/

/-- Model of `REPO_URL_REGEX.match`: `some (group1, group2)` on a match. -/
def repoUrlMatchL (l : List Char) : Option (List Char × List Char) :=
  match l with
  | 'h' :: 't' :: 't' :: 'p' :: 's' :: ':' :: '/' :: '/' :: r1 =>
    let (host1, r2) := spanP wordChar r1
    if host1 = [] then none else
    match r2 with
    | '.' :: r3 =>
      let (host2, r4) := spanP wordChar r3
      if host2 = [] then none else
      match r4 with
      | '/' :: r5 =>
        let (owner, r6) := spanP (fun c => c ≠ '/') r5
        if owner = [] then none else
        match r6 with
        | '/' :: r7 =>
          let (rname, r8) := spanP (fun c => c ≠ '/') r7
          if rname = [] then none else
          match r8.dropWhile (fun c => wordChar c || c = '/') with
          | [] => some (owner, rname)
          | ['\n'] => some (owner, rname)
          | _ => none
        | _ => none
      | _ => none
    | _ => none
  | _ => none

/-- Model of `PURL_REGEX.match`: `some (group1, group2, group3)` on a match. -/
def purlMatchL (l : List Char) : Option (List Char × List Char × List Char) :=
  match l with
  | 'p' :: 'k' :: 'g' :: ':' :: r1 =>
    let (eco, r2) := spanP wordChar r1
    if eco = [] then none else
    match r2 with
    | '/' :: r3 =>
      let (nm, r4) := spanP purlNameChar r3
      if nm = [] then none else
      let r5 := match r4 with
        | '@' :: r => r
        | r => r
      let (ver, r6) := spanP purlVerChar r5
      if dotStarDollarOk r6 then some (eco, nm, ver) else none
    | _ => none
  | _ => none

/-! ## Constants from the source -/

def MAX_REGISTRY_FAILED_REQUESTS : Nat := 3
def DOWNLOADS_DEPTH_DAYS : Nat := 7

/-! ## Dates: `datetime.strptime` for `CRATES_INPUT_DATE_FORMAT` and
`strftime` for `OUTPUT_DATE_FORMAT` -/

structure PyDateTime where
  year : Nat
  month : Nat
  day : Nat
  hour : Nat
  minute : Nat
  second : Nat
  microsecond : Nat
  tzOffsetSeconds : Int
deriving DecidableEq, Repr

def digitVal (c : Char) : Option Nat :=
  if c.isDigit then some (c.toNat - '0'.toNat) else none

/-- Up to `n` leading digits, and the rest. -/
def takeDigitsUpTo : Nat → List Char → List Nat × List Char
  | 0, l => ([], l)
  | _ + 1, [] => ([], [])
  | n + 1, c :: r =>
    match digitVal c with
    | some d =>
      let (ds, rest) := takeDigitsUpTo n r
      (d :: ds, rest)
    | none => ([], c :: r)

def digitsToNat (ds : List Nat) : Nat := ds.foldl (fun a d => a * 10 + d) 0

def expectChar (c : Char) : List Char → Option (List Char)
  | x :: r => if x = c then some r else none
  | [] => none

/-- Exactly `n` digits. -/
def parseFixedDigits (n : Nat) (l : List Char) : Option (Nat × List Char) :=
  let (ds, r) := takeDigitsUpTo n l
  if ds.length = n then some (digitsToNat ds, r) else none

/-- One or two digits (the `strptime` numeric directives are 1-2 digits,
always followed here by a non-digit delimiter, so greedy-2 is exact). -/
def parseUpTo2 (l : List Char) : Option (Nat × List Char) :=
  let (ds, r) := takeDigitsUpTo 2 l
  if ds.length = 0 then none else some (digitsToNat ds, r)

def ensure (b : Bool) : Option Unit := if b then some () else none

def isLeapYear (y : Nat) : Bool := (y % 4 = 0 && y % 100 ≠ 0) || y % 400 = 0

def daysInMonth (y m : Nat) : Nat :=
  if m = 2 then (if isLeapYear y then 29 else 28)
  else if m = 4 ∨ m = 6 ∨ m = 9 ∨ m = 11 then 30
  else 31

/-- Optional `:SS[.ffffff]` / `SS[.ffffff]` tail of a `%z` offset.  Returns
the seconds (0 when the group is absent) and the unconsumed rest; when the
group cannot be taken it is simply absent, and the caller's end-of-input
check rejects exactly the strings Python's backtracking rejects. -/
def parseTzSeconds (l : List Char) : Nat × List Char :=
  let core : List Char → Option (Nat × List Char) := fun l0 => do
    let (s, r) ← parseFixedDigits 2 l0
    match r with
    | '.' :: r2 =>
      let (fds, r3) := takeDigitsUpTo 6 r2
      if fds.length = 0 then none else some (s, r3)
    | _ => some (s, r)
  match l with
  | ':' :: r =>
    match core r with
    | some (s, rest) => (s, rest)
    | none => (0, ':' :: r)
  | _ =>
    match core l with
    | some (s, rest) => (s, rest)
    | none => (0, l)

/-- `%z`: `Z` or `[+-]HH[:]MM[[:]SS[.ffffff]]`; the resulting offset must be
strictly less than 24 hours (`datetime.timezone` validation). -/
def parseTz (l : List Char) : Option (Int × List Char) :=
  match l with
  | 'Z' :: r => some (0, r)
  | '+' :: r => do
    let (h, r1) ← parseFixedDigits 2 r
    let r2 := match r1 with
      | ':' :: t => t
      | t => t
    let (m, r3) ← parseFixedDigits 2 r2
    let (s, r4) := parseTzSeconds r3
    let total := h * 3600 + m * 60 + s
    let _ ← ensure (total < 86400)
    some ((total : Int), r4)
  | '-' :: r => do
    let (h, r1) ← parseFixedDigits 2 r
    let r2 := match r1 with
      | ':' :: t => t
      | t => t
    let (m, r3) ← parseFixedDigits 2 r2
    let (s, r4) := parseTzSeconds r3
    let total := h * 3600 + m * 60 + s
    let _ ← ensure (total < 86400)
    some (-(total : Int), r4)
  | _ => none

/-- `%Y-%m-%d` prefix of the crates date format (year ≥ 1, month 1-12,
day bounded by the month's length, as validated by `datetime`). -/
def parseYMD (l : List Char) : Option (Nat × Nat × Nat × List Char) :=
  match parseFixedDigits 4 l with
  | none => none
  | some (y, r0) =>
    if 1 ≤ y then
      match expectChar '-' r0 with
      | none => none
      | some r1 =>
        match parseUpTo2 r1 with
        | none => none
        | some (mo, r2) =>
          if 1 ≤ mo ∧ mo ≤ 12 then
            match expectChar '-' r2 with
            | none => none
            | some r3 =>
              match parseUpTo2 r3 with
              | none => none
              | some (d, r4) =>
                if 1 ≤ d ∧ d ≤ daysInMonth y mo then some (y, mo, d, r4) else none
          else none
    else none

/-- `%H:%M:%S` part of the crates date format (`datetime` restricts seconds
to ≤ 59 even though the `_strptime` regex itself would accept 60 and 61). -/
def parseHMS (l : List Char) : Option (Nat × Nat × Nat × List Char) :=
  match parseUpTo2 l with
  | none => none
  | some (h, r0) =>
    if h ≤ 23 then
      match expectChar ':' r0 with
      | none => none
      | some r1 =>
        match parseUpTo2 r1 with
        | none => none
        | some (mi, r2) =>
          if mi ≤ 59 then
            match expectChar ':' r2 with
            | none => none
            | some r3 =>
              match parseUpTo2 r3 with
              | none => none
              | some (sec, r4) =>
                if sec ≤ 59 then some (h, mi, sec, r4) else none
          else none
    else none

/-- `.%f%z` tail of the crates date format (`%f` is 1-6 digits padded right
to microseconds; the whole input must be consumed, as `strptime` requires). -/
def parseFracTz (l : List Char) : Option (Nat × Int) :=
  match expectChar '.' l with
  | none => none
  | some r0 =>
    match takeDigitsUpTo 6 r0 with
    | (fds, r1) =>
      if fds.length = 0 then none
      else
        let micro := digitsToNat (fds ++ List.replicate (6 - fds.length) 0)
        match parseTz r1 with
        | none => none
        | some (off, r2) => if r2 = [] then some (micro, off) else none

/-- Model of `datetime.strptime(s, "%Y-%m-%dT%H:%M:%S.%f%z")`:
`none` models the `ValueError` the source lets escape to its attempt-level
handler. -/
def strptimeCratesL (l : List Char) : Option PyDateTime :=
  match parseYMD l with
  | none => none
  | some (y, mo, d, r0) =>
    match expectChar 'T' r0 with
    | none => none
    | some r1 =>
      match parseHMS r1 with
      | none => none
      | some (h, mi, sec, r2) =>
        match parseFracTz r2 with
        | none => none
        | some (micro, off) => some ⟨y, mo, d, h, mi, sec, micro, off⟩

def strptimeCrates (s : String) : Option PyDateTime := strptimeCratesL s.data

def padNum (w n : Nat) : String :=
  let s := toString n
  String.mk (List.replicate (w - s.length) '0') ++ s

/-- `strftime(OUTPUT_DATE_FORMAT)` with `OUTPUT_DATE_FORMAT = "%Y-%m-%d"`. -/
def strftimeOutputDate (d : PyDateTime) : String :=
  padNum 4 d.year ++ "-" ++ padNum 2 d.month ++ "-" ++ padNum 2 d.day

/-! ## Data model: SBOM entries and `Package` -/

/-- The slice of one parsed SBOM package dictionary the source reads:
`package['externalreference'][0][2]` (the purl string) and the optional
`'version'` key used as a fallback by `from_purl`. -/
structure SbomPackage where
  purl : String
  version : Option String
deriving DecidableEq, Repr

/-- `Package.__init__` state.  `_package_type` holds the raw string captured
from the purl (the source annotates it `PackageType` but assigns
`match.group(1)` unchecked; `StrEnum` comparison is string comparison).
`_lib_owners` models the Python `set` as an insertion-ordered deduplicated
list. -/
structure Package where
  _name : Option String
  _version : Option String
  _package_type : Option String
  _downloads : Nat
  _lib_owners : List String
  _repo_owner : Option String
  _repo_name : Option String
  _repo_url : Option String
  _last_push_date : Option PyDateTime
  _last_push_author : Option String
deriving DecidableEq, Repr

/-- `Package()` as constructed in `main` (all identity arguments defaulted). -/
def Package.init : Package :=
  { _name := none, _version := none, _package_type := none, _downloads := 0,
    _lib_owners := [], _repo_owner := none, _repo_name := none,
    _repo_url := none, _last_push_date := none, _last_push_author := none }

/-- Python truthiness of an optional string (`None` and `""` are falsy). -/
def strTruthy : Option String → Bool
  | none => false
  | some s => s ≠ ""

/-- `Package.from_purl(purl, sbom_dict)` (source lines 44-51): on a regex
match, set the identity fields from the (percent-decoded) groups and fall
back to the SBOM dictionary's `version` key when the captured version is
empty and a (truthy) dictionary was supplied; on no match, change nothing. -/
def Package.from_purl (p : Package) (purl : String) (sbom_dict : Option SbomPackage) :
    Package :=
  match purlMatchL purl.data with
  | some (eco, nm, ver) =>
    let q := { p with _package_type := some (String.mk eco),
                      _name := some (unquote (String.mk nm)),
                      _version := some (unquote (String.mk ver)) }
    if strTruthy q._version = false then
      match sbom_dict with
      | some d => { q with _version := some (unquote (d.version.getD "")) }
      | none => q
    else q
  | none => p

/-- `Package.add_lib_owner` (source lines 93-94): `set.add`. -/
def Package.add_lib_owner (p : Package) (lib_owner : String) : Package :=
  { p with _lib_owners :=
      if lib_owner ∈ p._lib_owners then p._lib_owners
      else p._lib_owners ++ [lib_owner] }

/-! ## Event trace: requests issued and warning-level log calls -/

inductive Event where
  /-- `requests.get` of `/api/v1/crates/{name}` during attempt `i` (0-based). -/
  | getCrate (i : Nat)
  /-- `requests.get` of `/api/v1/crates/{name}/owners` during attempt `i`. -/
  | getOwners (i : Nat)
  /-- `requests.get` of `/api/v1/crates/{name}/downloads` during attempt `i`. -/
  | getDownloads (i : Nat)
  /-- `logger.warning("Invalid repo URL: ...")` inside `set_repo_url`. -/
  | warnRepoUrl
  /-- `logger.warning("Error fetching cargo owners ...")` on non-200 owners. -/
  | warnOwners
  /-- `logger.warning("Error fetching cargo downloads ...")` on non-200. -/
  | warnDownloads
  /-- `logger.warning("Error fetching cargo metadata ... attempt {n}")`:
  the attempt-level exception handler; `n` is the 1-based count it prints. -/
  | warnAttempt (n : Nat)
deriving DecidableEq, Repr

def Event.isGetCrate : Event → Bool
  | .getCrate _ => true
  | _ => false

/-- `Package.set_repo_url` (source lines 96-104), with its event trace.
A truthy URL is always recorded in `_repo_url`; owner and name are set only
on a `REPO_URL_REGEX` match; a falsy URL only logs the warning. -/
def Package.set_repo_url (p : Package) (repo_url : Option String) :
    Package × List Event :=
  if strTruthy repo_url then
    let q := { p with _repo_url := repo_url }
    match repoUrlMatchL (repo_url.getD "").data with
    | some (o, r) =>
      ({ q with _repo_owner := some (String.mk o), _repo_name := some (String.mk r) }, [])
    | none => (q, [])
  else (p, [Event.warnRepoUrl])

/-! ## The registry environment seen by one enrichment call -/

/-- An HTTP response: status plus its JSON body; `body = none` models a body
on which `.json()` or the subsequent key accesses raise. -/
structure HttpResponse (β : Type) where
  status_code : Nat
  body : Option β
deriving DecidableEq, Repr

/-- One entry of `data['versions']`.  `published_by` is `None` or a
dictionary whose `login` key may be absent (both make the recorded author
`None`). -/
structure CrateVersion where
  num : String
  created_at : String
  published_by : Option (Option String)
deriving DecidableEq, Repr

/-- The fields of the top-level crates.io JSON document the source reads. -/
structure CrateResponseBody where
  repository : Option String
  homepage : Option String
  versions : List CrateVersion
deriving DecidableEq, Repr

/-- One entry of the owners endpoint's `users` array. -/
structure OwnerUser where
  login : String
  name : String
deriving DecidableEq, Repr

/-- `meta.extra_downloads` of the downloads endpoint: each daily entry is
modelled by its `downloads` value, the only key the source reads. -/
structure DownloadsBody where
  extra_downloads : List (Nat)
deriving DecidableEq, Repr

/-- What the registry would answer to the three GETs of one attempt; a `none`
request models `requests.get` itself raising (network error). -/
structure AttemptEnv where
  crate : Option (HttpResponse CrateResponseBody)
  owners : Option (HttpResponse (List OwnerUser))
  downloads : Option (HttpResponse DownloadsBody)

/-! ## `fill_package_metadata` (source lines 106-152) -/

/-- `crate['published_by'].get('login', None) if crate['published_by'] else None`. -/
def pubLogin : Option (Option String) → Option String
  | none => none
  | some lg => lg

/-- The version-history scan, source lines 121-127: enumerate `versions`;
on the first entry with `crate['num'] == self.version or index == 0`, parse
its `created_at` and read its author, then `break`.  Outer `none` models the
`strptime` exception; `some none` means the loop finished with no entry
taken. -/
def versionScan (target : String) : List CrateVersion → Nat →
    Option (Option (PyDateTime × Option String))
  | [], _ => some none
  | c :: rest, idx =>
    if c.num = target ∨ idx = 0 then
      match strptimeCrates c.created_at with
      | none => none
      | some d => some (some (d, pubLogin c.published_by))
    else versionScan target rest (idx + 1)

/-- Source line 120: the scan only runs when `self.version` is truthy.
The `Bool` is the raised-exception flag. -/
def applyVersionScan (p : Package) (versions : List CrateVersion) : Package × Bool :=
  if strTruthy p._version then
    match versionScan (p._version.getD "") versions 0 with
    | none => (p, true)
    | some none => (p, false)
    | some (some (d, a)) =>
      ({ p with _last_push_date := some d, _last_push_author := a }, false)
  else (p, false)

/-- `f"{owner_login} ({owner_name})"`. -/
def ownerDescriptor (u : OwnerUser) : String := u.login ++ " (" ++ u.name ++ ")"

/-- Owners fetch, source lines 128-137.  The `Bool` is the raised flag. -/
def fetchOwners (p : Package) (i : Nat) (resp : Option (HttpResponse (List OwnerUser))) :
    Package × List Event × Bool :=
  match resp with
  | none => (p, [Event.getOwners i], true)
  | some r =>
    if r.status_code = 200 then
      match r.body with
      | none => (p, [Event.getOwners i], true)
      | some users =>
        (users.foldl (fun q u => q.add_lib_owner (ownerDescriptor u)) p,
         [Event.getOwners i], false)
    else (p, [Event.getOwners i, Event.warnOwners], false)

/-- The download summation loop, source lines 142-146: `self._downloads = 0`
then add per-day counts, breaking once `index == DOWNLOADS_DEPTH_DAYS`. -/
def downloadsLoop : Nat → List Nat → Nat → Nat
  | _, [], acc => acc
  | idx, d :: rest, acc =>
    if idx = DOWNLOADS_DEPTH_DAYS then acc
    else downloadsLoop (idx + 1) rest (acc + d)

/-- Downloads fetch, source lines 138-148.  (A 200 body that parses but
lacks the expected keys is modelled as `body = none`, like malformed JSON:
the reset-then-raise distinction is unobservable because `_downloads` can
only have been set by an attempt that immediately `break`s.) -/
def fetchDownloads (p : Package) (i : Nat) (resp : Option (HttpResponse DownloadsBody)) :
    Package × List Event × Bool :=
  match resp with
  | none => (p, [Event.getDownloads i], true)
  | some r =>
    if r.status_code = 200 then
      match r.body with
      | none => (p, [Event.getDownloads i], true)
      | some dd =>
        ({ p with _downloads := downloadsLoop 0 dd.extra_downloads 0 },
         [Event.getDownloads i], false)
    else (p, [Event.getDownloads i, Event.warnDownloads], false)

/-- Processing of a 200 top-level response, source lines 115-148: repo URL
classification, version scan, owners fetch, downloads fetch — in that order,
each later step skipped once an exception (the `Bool`) is raised. -/
def process200 (p : Package) (i : Nat) (data : CrateResponseBody) (env : AttemptEnv) :
    Package × List Event × Bool :=
  let sr := Package.set_repo_url p
      (if strTruthy data.repository then data.repository else data.homepage)
  match applyVersionScan sr.1 data.versions with
  | (p2, true) => (p2, sr.2, true)
  | (p2, false) =>
    match fetchOwners p2 i env.owners with
    | (p3, evs2, true) => (p3, sr.2 ++ evs2, true)
    | (p3, evs2, false) =>
      match fetchDownloads p3 i env.downloads with
      | (p4, evs3, raised) => (p4, sr.2 ++ evs2 ++ evs3, raised)

inductive AttemptOutcome where
  /-- The `break` at source line 149 was reached. -/
  | broke
  /-- The try-block finished without `break` (non-cargo, or non-200). -/
  | fellThrough
  /-- An exception escaped to the handler at source line 151. -/
  | raised
deriving DecidableEq, Repr

/-- One iteration of the retry loop (the try-block body, source
lines 108-150). -/
def runAttempt (p : Package) (i : Nat) (env : AttemptEnv) :
    Package × List Event × AttemptOutcome :=
  if p._package_type = some "cargo" then
    match env.crate with
    | none => (p, [Event.getCrate i], AttemptOutcome.raised)
    | some r =>
      if r.status_code = 200 then
        match r.body with
        | none => (p, [Event.getCrate i], AttemptOutcome.raised)
        | some data =>
          match process200 p i data env with
          | (q, evs, true) => (q, Event.getCrate i :: evs, AttemptOutcome.raised)
          | (q, evs, false) => (q, Event.getCrate i :: evs, AttemptOutcome.broke)
      else (p, [Event.getCrate i], AttemptOutcome.fellThrough)
  else (p, [], AttemptOutcome.fellThrough)

/-- The retry loop `for i in range(MAX_REGISTRY_FAILED_REQUESTS)`; `fuel` is
the number of iterations left, `i` the current index.  An exception appends
the handler's warning (with the 1-based attempt count) and continues; only
`break` stops early. -/
def fillGo (env : Nat → AttemptEnv) : Nat → Nat → Package → Package × List Event
  | 0, _, p => (p, [])
  | fuel + 1, i, p =>
    match runAttempt p i (env i) with
    | (q, evs, AttemptOutcome.broke) => (q, evs)
    | (q, evs, AttemptOutcome.fellThrough) =>
      let rest := fillGo env fuel (i + 1) q
      (rest.1, evs ++ rest.2)
    | (q, evs, AttemptOutcome.raised) =>
      let rest := fillGo env fuel (i + 1) q
      (rest.1, evs ++ [Event.warnAttempt (i + 1)] ++ rest.2)

/-- `Package.fill_package_metadata` (source lines 106-152) against a given
registry behaviour. -/
def Package.fill_package_metadata (p : Package) (env : Nat → AttemptEnv) :
    Package × List Event :=
  fillGo env MAX_REGISTRY_FAILED_REQUESTS 0 p

/-! ## `main` (source lines 155-194): the report pipeline -/

/-- `", ".join(self._lib_owners)` (the `owners` property). -/
def joinOwners (l : List String) : String := String.intercalate ", " l

/-- The row appended for one package (source lines 181-190); `none` is a
value the CSV writer renders as an empty cell. -/
def renderRow (p : Package) : List (Option String) :=
  [p._package_type, p._name, p._version, p._repo_url, p._repo_owner,
   p._repo_name, some (joinOwners p._lib_owners), some (toString p._downloads),
   p._last_push_date.map strftimeOutputDate, p._last_push_author]

/-- The per-package body of `main`'s loop (source lines 176-190): build a
fresh record from the purl (passing the package dictionary as fallback),
enrich it, and flatten it to a row. -/
def processPackage (sp : SbomPackage) (env : Nat → AttemptEnv) : List (Option String) :=
  let pkg := Package.init.from_purl sp.purl (some sp)
  let filled := pkg.fill_package_metadata env
  renderRow filled.1

/-- `main`'s loop over the SBOM's package list, each package paired with the
registry behaviour its enrichment call observes. -/
def runPipeline (inputs : List (SbomPackage × (Nat → AttemptEnv))) :
    List (List (Option String)) :=
  inputs.map (fun pe => processPackage pe.1 pe.2)

/-! ## Derived notions used by the statements -/

/-- Modelled from the spec: the repository contains no purl serializer, so
re-serialization of a parsed identity is the spec's stated purl form
`pkg:<ecosystem>/<name>@<version>` by plain interpolation. -/
def toPurl (eco nm ver : String) : String :=
  "pkg:" ++ eco ++ "/" ++ nm ++ "@" ++ ver

/-- The invariant of claim C8: repository owner and name are both unset, or
they were both produced together by a successful `REPO_URL_REGEX` match of
some URL that was set. -/
def RepoInv (p : Package) : Prop :=
  (p._repo_owner = none ∧ p._repo_name = none) ∨
  ∃ u o r, repoUrlMatchL u = some (o, r) ∧
    p._repo_owner = some (String.mk o) ∧ p._repo_name = some (String.mk r)

/-! ## Concrete registry behaviours used by counterexamples -/

/-- Version-history entry `1.0.0` (the most recent entry, listed first). -/
def cexV1 : CrateVersion :=
  { num := "1.0.0", created_at := "2020-01-02T03:04:05.000006+00:00",
    published_by := some (some "alice") }

/-- Version-history entry `2.0.0` (the record's target version, listed
second). -/
def cexV2 : CrateVersion :=
  { num := "2.0.0", created_at := "2021-06-07T08:09:10.000012+00:00",
    published_by := some (some "bob") }

def cexBody : CrateResponseBody :=
  { repository := some "https://github.com/serde-rs/serde", homepage := none,
    versions := [cexV1, cexV2] }

/-- A cargo record whose target version is `2.0.0`. -/
def cexPkg : Package :=
  { Package.init with _package_type := some "cargo", _name := some "serde",
                      _version := some "2.0.0" }

/-- Registry answering the top-level fetch with 200 and well-formed JSON,
and both secondary fetches with 500. -/
def cexEnv1 : Nat → AttemptEnv := fun _ =>
  { crate := some { status_code := 200, body := some cexBody },
    owners := some { status_code := 500, body := none },
    downloads := some { status_code := 500, body := none } }

/-- The parse of `cexV1.created_at`. -/
def cexD1 : PyDateTime :=
  { year := 2020, month := 1, day := 2, hour := 3, minute := 4, second := 5,
    microsecond := 6, tzOffsetSeconds := 0 }

/-- The parse of `cexV2.created_at`. -/
def cexD2 : PyDateTime :=
  { year := 2021, month := 6, day := 7, hour := 8, minute := 9, second := 10,
    microsecond := 12, tzOffsetSeconds := 0 }

/-- A cargo record with no target version. -/
def cexPkgNoVer : Package :=
  { Package.init with _package_type := some "cargo", _name := some "serde" }

/-- Registry answering every top-level fetch with a 500. -/
def cexEnv500 : Nat → AttemptEnv := fun _ =>
  { crate := some { status_code := 500, body := none },
    owners := none, downloads := none }

/-- Registry answering every top-level fetch with 200 but a body on which
JSON decoding raises. -/
def cexEnv200Bad : Nat → AttemptEnv := fun _ =>
  { crate := some { status_code := 200, body := none },
    owners := some { status_code := 200, body := some [] },
    downloads := some { status_code := 200, body := some { extra_downloads := [] } } }

/-- The trace of `fuel` attempts that all raise at the top-level GET,
starting at attempt index `i`. -/
def raisedTrace : Nat → Nat → List Event
  | 0, _ => []
  | fuel + 1, i => Event.getCrate i :: Event.warnAttempt (i + 1) :: raisedTrace fuel (i + 1)

/-- The trace of `fuel` attempts that all see a non-200 top-level response
(retried with no warning), starting at attempt index `i`. -/
def silentTrace : Nat → Nat → List Event
  | 0, _ => []
  | fuel + 1, i => Event.getCrate i :: silentTrace fuel (i + 1)

/-! # Helper lemmas -/

theorem spanP_append_stop (p : Char → Bool) (l1 : List Char) (c : Char) (l2 : List Char)
    (h1 : ∀ x ∈ l1, p x = true) (hc : p c = false) :
    spanP p (l1 ++ c :: l2) = (l1, c :: l2) := by
  induction l1 with
  | nil => simp [spanP, hc]
  | cons a as ih =>
    have ha : p a = true := h1 a (List.mem_cons_self a as)
    have ih2 := ih (fun x hx => h1 x (List.mem_cons_of_mem a hx))
    simp [spanP, ha, ih2]

theorem spanP_all (p : Char → Bool) (l : List Char) (h : ∀ x ∈ l, p x = true) :
    spanP p l = (l, []) := by
  induction l with
  | nil => rfl
  | cons a as ih =>
    have ha : p a = true := h a (List.mem_cons_self a as)
    have ih2 := ih (fun x hx => h x (List.mem_cons_of_mem a hx))
    simp [spanP, ha, ih2]

/-- On a well-formed purl built from the three charsets, the regex model
captures exactly the three components. -/
theorem purlMatchL_valid (eco nm ver : List Char)
    (he : eco ≠ []) (hn : nm ≠ [])
    (hec : ∀ c ∈ eco, wordChar c = true)
    (hnc : ∀ c ∈ nm, purlNameChar c = true)
    (hvc : ∀ c ∈ ver, purlVerChar c = true) :
    purlMatchL ('p' :: 'k' :: 'g' :: ':' :: (eco ++ '/' :: (nm ++ '@' :: ver))) =
      some (eco, nm, ver) := by
  have h1 : spanP wordChar (eco ++ '/' :: (nm ++ '@' :: ver)) =
      (eco, '/' :: (nm ++ '@' :: ver)) :=
    spanP_append_stop _ _ _ _ hec (by decide)
  have h2 : spanP purlNameChar (nm ++ '@' :: ver) = (nm, '@' :: ver) :=
    spanP_append_stop _ _ _ _ hnc (by decide)
  have h3 : spanP purlVerChar ver = (ver, []) := spanP_all _ _ hvc
  simp [purlMatchL, h1, h2, h3, he, hn, dotStarDollarOk]

theorem fillGo_nonCargo (env : Nat → AttemptEnv) (fuel i : Nat) (p : Package)
    (h : ¬ p._package_type = some "cargo") : fillGo env fuel i p = (p, []) := by
  induction fuel generalizing i with
  | zero => rfl
  | succ n ih => simp [fillGo, runAttempt, h, ih]

/-! # Claim C5 -/

/-- C5: every purl of the valid form `pkg:<eco>/<name>@<version>` over the
stated charsets parses to exactly `(eco, percent-decoded name,
percent-decoded version)`; `pkg:cargo/foo%2Dbar@1.0.0` yields name `foo-bar`
and version `1.0.0`; re-serializing that triple (spec-modelled `toPurl`)
and re-parsing returns the same triple. -/
theorem c5_purl_parse_roundtrip :
    (∀ (eco nm ver : String), eco.data ≠ [] → nm.data ≠ [] →
      (∀ c ∈ eco.data, wordChar c = true) →
      (∀ c ∈ nm.data, purlNameChar c = true) →
      (∀ c ∈ ver.data, purlVerChar c = true) →
      Package.init.from_purl ("pkg:" ++ eco ++ "/" ++ nm ++ "@" ++ ver) none =
        { Package.init with _package_type := some eco, _name := some (unquote nm),
                            _version := some (unquote ver) }) ∧
    Package.init.from_purl "pkg:cargo/foo%2Dbar@1.0.0" none =
      { Package.init with _package_type := some "cargo", _name := some "foo-bar",
                          _version := some "1.0.0" } ∧
    toPurl "cargo" "foo-bar" "1.0.0" = "pkg:cargo/foo-bar@1.0.0" ∧
    Package.init.from_purl (toPurl "cargo" "foo-bar" "1.0.0") none =
      { Package.init with _package_type := some "cargo", _name := some "foo-bar",
                          _version := some "1.0.0" } := by
  refine ⟨?_, by decide, by decide, by decide⟩
  intro eco nm ver he hn hec hnc hvc
  have hdata : ("pkg:" ++ eco ++ "/" ++ nm ++ "@" ++ ver).data =
      'p' :: 'k' :: 'g' :: ':' :: (eco.data ++ '/' :: (nm.data ++ '@' :: ver.data)) := by
    simp [String.data_append, show ("pkg:" : String).data = ['p', 'k', 'g', ':'] from rfl,
      show ("/" : String).data = ['/'] from rfl, show ("@" : String).data = ['@'] from rfl]
  simp only [Package.from_purl, hdata,
    purlMatchL_valid eco.data nm.data ver.data he hn hec hnc hvc]
  split
  · rfl
  · rfl

/-- Closed instance of the universally quantified part of C5. -/
theorem c5_witness :
    Package.init.from_purl ("pkg:" ++ "cargo" ++ "/" ++ "foo" ++ "@" ++ "1") none =
      { Package.init with _package_type := some "cargo", _name := some (unquote "foo"),
                          _version := some (unquote "1") } :=
  c5_purl_parse_roundtrip.1 "cargo" "foo" "1" (by decide) (by decide) (by decide)
    (by decide) (by decide)

/-! # Claim C6 -/

/-- C6: a string rejected by `PURL_REGEX` leaves the record unchanged — in
particular a fresh record keeps ecosystem, name and version all null — no
exception is raised (the model is a total function), and the pipeline still
renders the package as a row of empty cells. -/
theorem c6_unparsable_purl (sp : SbomPackage) (env : Nat → AttemptEnv)
    (h : purlMatchL sp.purl.data = none) :
    (∀ (p : Package) (d : Option SbomPackage), p.from_purl sp.purl d = p) ∧
    (Package.init.from_purl sp.purl (some sp))._package_type = none ∧
    (Package.init.from_purl sp.purl (some sp))._name = none ∧
    (Package.init.from_purl sp.purl (some sp))._version = none ∧
    processPackage sp env =
      [none, none, none, none, none, none, some "", some "0", none, none] := by
  have hid : ∀ (p : Package) (d : Option SbomPackage), p.from_purl sp.purl d = p := by
    intro p d
    unfold Package.from_purl
    rw [h]
  have hfill : Package.fill_package_metadata Package.init env = (Package.init, []) := by
    unfold Package.fill_package_metadata
    exact fillGo_nonCargo env _ 0 Package.init (by decide)
  refine ⟨hid, ?_, ?_, ?_, ?_⟩
  · rw [hid]; rfl
  · rw [hid]; rfl
  · rw [hid]; rfl
  · simp only [processPackage, hid, hfill]
    rfl

/-- Closed instance of C6 at the spec's example input `not-a-purl`. -/
theorem c6_witness :
    processPackage { purl := "not-a-purl", version := some "1.2.3" } (fun _ =>
      { crate := none, owners := none, downloads := none }) =
      [none, none, none, none, none, none, some "", some "0", none, none] :=
  (c6_unparsable_purl { purl := "not-a-purl", version := some "1.2.3" }
    (fun _ => { crate := none, owners := none, downloads := none })
    (by decide)).2.2.2.2

/-! # Claim C10 -/

/-- C10: `set_repo_url` records every non-empty URL in `_repo_url` even when
it does not match `REPO_URL_REGEX`, so a record can hold a non-null
repository URL while owner and name are both null. -/
theorem c10_repo_url_always_recorded :
    (∀ (p : Package) (u : String), u ≠ "" →
      ((p.set_repo_url (some u)).1)._repo_url = some u) ∧
    (Package.init.set_repo_url (some "ftp://bad")).1._repo_url = some "ftp://bad" ∧
    (Package.init.set_repo_url (some "ftp://bad")).1._repo_owner = none ∧
    (Package.init.set_repo_url (some "ftp://bad")).1._repo_name = none := by
  refine ⟨?_, by decide, by decide, by decide⟩
  intro p u hu
  have ht : strTruthy (some u) = true := by simp [strTruthy, hu]
  simp only [Package.set_repo_url, ht, if_true]
  split
  · rfl
  · rfl

/-- Closed instance of the universally quantified part of C10. -/
theorem c10_witness :
    ((Package.init.set_repo_url (some "x")).1)._repo_url = some "x" :=
  c10_repo_url_always_recorded.1 Package.init "x" (by decide)

/-! # Claim C2 -/

/-- C2 counterexample: `ftp://bad` is non-empty and rejected by
`REPO_URL_REGEX`, owner and name stay unset and nothing is raised — but the
event trace is empty: no warning-level diagnostic is emitted, contrary to
the claim. -/
theorem c2_counterexample :
    repoUrlMatchL ("ftp://bad" : String).data = none ∧
    Package.init.set_repo_url (some "ftp://bad") =
      ({ Package.init with _repo_url := some "ftp://bad" }, []) :=
  ⟨by decide, by decide⟩

/-- C2 amended: a non-empty URL rejected by the pattern silently records the
URL and leaves owner/name unset with NO warning; the warning is emitted
exactly for falsy (empty/None) input, which leaves the whole record
unchanged; neither path raises (the model is a total function). -/
theorem c2_amended (p : Package) (u : String) :
    (u ≠ "" → repoUrlMatchL u.data = none →
      p.set_repo_url (some u) = ({ p with _repo_url := some u }, [])) ∧
    p.set_repo_url (some "") = (p, [Event.warnRepoUrl]) ∧
    p.set_repo_url none = (p, [Event.warnRepoUrl]) := by
  refine ⟨?_, rfl, rfl⟩
  intro hu hm
  have ht : strTruthy (some u) = true := by simp [strTruthy, hu]
  simp only [Package.set_repo_url, ht, if_true, Option.getD]
  rw [hm]

/-- Closed instance of C2 (amended) at the spec's example `ftp://bad`. -/
theorem c2_witness :
    Package.init.set_repo_url (some "ftp://bad") =
      ({ Package.init with _repo_url := some "ftp://bad" }, []) :=
  (c2_amended Package.init "ftp://bad").1 (by decide) (by decide)

/-! # Claim C7 -/

theorem downloadsLoop_sum (l : List Nat) (idx acc : Nat)
    (h : idx ≤ DOWNLOADS_DEPTH_DAYS) :
    downloadsLoop idx l acc = acc + (l.take (DOWNLOADS_DEPTH_DAYS - idx)).sum := by
  induction l generalizing idx acc with
  | nil => simp [downloadsLoop]
  | cons d rest ih =>
    by_cases hidx : idx = DOWNLOADS_DEPTH_DAYS
    · subst hidx
      simp [downloadsLoop]
    · have h7 : DOWNLOADS_DEPTH_DAYS - idx = (DOWNLOADS_DEPTH_DAYS - (idx + 1)) + 1 := by
        have : idx < DOWNLOADS_DEPTH_DAYS := lt_of_le_of_ne h hidx
        omega
      rw [h7]
      simp only [downloadsLoop, if_neg hidx, List.take_succ_cons, List.sum_cons]
      rw [ih (idx + 1) (acc + d) (by omega)]
      omega

/-- C7: a 200 downloads response makes the download count the sum of the
first `DOWNLOADS_DEPTH_DAYS` (7) per-day values in returned order (even when
more are present); a non-200 response logs a warning and keeps the prior
value. -/
theorem c7_download_window (p : Package) (i : Nat) (r : HttpResponse DownloadsBody) :
    (r.status_code = 200 → ∀ dd, r.body = some dd →
      (fetchDownloads p i (some r)).1._downloads =
        (dd.extra_downloads.take DOWNLOADS_DEPTH_DAYS).sum) ∧
    (¬ r.status_code = 200 →
      (fetchDownloads p i (some r)).1._downloads = p._downloads ∧
      Event.warnDownloads ∈ (fetchDownloads p i (some r)).2.1) := by
  constructor
  · intro h200 dd hb
    simp only [fetchDownloads, h200, if_true, hb]
    have := downloadsLoop_sum dd.extra_downloads 0 0 (by decide)
    simpa using this
  · intro hn
    simp [fetchDownloads, hn]

/-- Closed instance of C7: of ten daily entries only the first seven are
summed. -/
theorem c7_witness :
    (fetchDownloads Package.init 0
        (some ⟨200, some ⟨[1, 2, 3, 4, 5, 6, 7, 8, 9, 10]⟩⟩)).1._downloads =
      (([1, 2, 3, 4, 5, 6, 7, 8, 9, 10] : List Nat).take DOWNLOADS_DEPTH_DAYS).sum :=
  (c7_download_window Package.init 0 _).1 rfl _ rfl

/-! # Field-preservation lemmas for the enrichment steps -/

theorem set_repo_url_misc (p : Package) (u : Option String) :
    ((p.set_repo_url u).1)._version = p._version ∧
    ((p.set_repo_url u).1)._last_push_date = p._last_push_date ∧
    ((p.set_repo_url u).1)._last_push_author = p._last_push_author := by
  unfold Package.set_repo_url
  split
  · split
    · exact ⟨rfl, rfl, rfl⟩
    · exact ⟨rfl, rfl, rfl⟩
  · exact ⟨rfl, rfl, rfl⟩

theorem foldl_add_lib_owner_misc (users : List OwnerUser) (p : Package) :
    let q := users.foldl (fun q u => q.add_lib_owner (ownerDescriptor u)) p
    q._last_push_date = p._last_push_date ∧ q._last_push_author = p._last_push_author ∧
    q._repo_owner = p._repo_owner ∧ q._repo_name = p._repo_name := by
  induction users generalizing p with
  | nil => exact ⟨rfl, rfl, rfl, rfl⟩
  | cons u us ih =>
    simpa [List.foldl_cons, Package.add_lib_owner] using
      ih (p.add_lib_owner (ownerDescriptor u))

theorem fetchOwners_misc (p : Package) (i : Nat)
    (resp : Option (HttpResponse (List OwnerUser))) :
    ((fetchOwners p i resp).1)._last_push_date = p._last_push_date ∧
    ((fetchOwners p i resp).1)._last_push_author = p._last_push_author ∧
    ((fetchOwners p i resp).1)._repo_owner = p._repo_owner ∧
    ((fetchOwners p i resp).1)._repo_name = p._repo_name := by
  unfold fetchOwners
  split
  · exact ⟨rfl, rfl, rfl, rfl⟩
  · split
    · split
      · exact ⟨rfl, rfl, rfl, rfl⟩
      · exact foldl_add_lib_owner_misc _ p
    · exact ⟨rfl, rfl, rfl, rfl⟩

theorem fetchDownloads_misc (p : Package) (i : Nat)
    (resp : Option (HttpResponse DownloadsBody)) :
    ((fetchDownloads p i resp).1)._last_push_date = p._last_push_date ∧
    ((fetchDownloads p i resp).1)._last_push_author = p._last_push_author ∧
    ((fetchDownloads p i resp).1)._repo_owner = p._repo_owner ∧
    ((fetchDownloads p i resp).1)._repo_name = p._repo_name := by
  unfold fetchDownloads
  split
  · exact ⟨rfl, rfl, rfl, rfl⟩
  · split
    · split
      · exact ⟨rfl, rfl, rfl, rfl⟩
      · exact ⟨rfl, rfl, rfl, rfl⟩
    · exact ⟨rfl, rfl, rfl, rfl⟩

theorem applyVersionScan_repo (p : Package) (vs : List CrateVersion) :
    ((applyVersionScan p vs).1)._repo_owner = p._repo_owner ∧
    ((applyVersionScan p vs).1)._repo_name = p._repo_name := by
  unfold applyVersionScan
  split
  · split
    · exact ⟨rfl, rfl⟩
    · exact ⟨rfl, rfl⟩
    · exact ⟨rfl, rfl⟩
  · exact ⟨rfl, rfl⟩

/-- The push-date fields of the outcome of a 200-processing are exactly what
the version scan produced. -/
theorem process200_push (p : Package) (i : Nat) (data : CrateResponseBody)
    (env : AttemptEnv) :
    (process200 p i data env).1._last_push_date =
      (applyVersionScan (p.set_repo_url (if strTruthy data.repository then
        data.repository else data.homepage)).1 data.versions).1._last_push_date ∧
    (process200 p i data env).1._last_push_author =
      (applyVersionScan (p.set_repo_url (if strTruthy data.repository then
        data.repository else data.homepage)).1 data.versions).1._last_push_author := by
  unfold process200
  rcases hav : applyVersionScan (p.set_repo_url (if strTruthy data.repository then
      data.repository else data.homepage)).1 data.versions with ⟨p2, b⟩
  cases b
  · rcases hfo : fetchOwners p2 i env.owners with ⟨p3, evs2, b2⟩
    cases b2
    · rcases hfd : fetchDownloads p3 i env.downloads with ⟨p4, evs3, b3⟩
      have h3 := fetchOwners_misc p2 i env.owners
      have h4 := fetchDownloads_misc p3 i env.downloads
      rw [hfo] at h3
      rw [hfd] at h4
      simp only [hav, hfo, hfd]
      exact ⟨by rw [h4.1, h3.1], by rw [h4.2.1, h3.2.1]⟩
    · have h3 := fetchOwners_misc p2 i env.owners
      rw [hfo] at h3
      simp only [hav, hfo]
      exact ⟨h3.1, h3.2.1⟩
  · simp [hav]

/-- On a 200 top-level response the attempt's resulting record is the
200-processing's record, whatever the exception outcome. -/
theorem runAttempt_200_fst (p : Package) (i : Nat) (env : AttemptEnv)
    (r : HttpResponse CrateResponseBody) (data : CrateResponseBody)
    (hty : p._package_type = some "cargo")
    (hcr : env.crate = some r) (h200 : r.status_code = 200) (hb : r.body = some data) :
    (runAttempt p i env).1 = (process200 p i data env).1 := by
  rcases hpr : process200 p i data env with ⟨q, evs, b⟩
  cases b
  · simp [runAttempt, hty, hcr, h200, hb, hpr]
  · simp [runAttempt, hty, hcr, h200, hb, hpr]

/-! # Claim C1 -/

/-- C1 counterexample: the record's target version is `2.0.0` and the
version history contains an exactly matching entry (`cexV2`, by `bob`,
created 2021) in second position — yet after a 200 enrichment the recorded
creation timestamp and author are those of the FIRST entry (`cexV1`, by
`alice`, created 2020): the scan's `or index == 0` makes the first entry win
regardless of the match, contrary to the claim. -/
theorem c1_counterexample :
    cexPkg._version = some "2.0.0" ∧
    cexV1.num = "1.0.0" ∧ cexV2.num = "2.0.0" ∧
    cexBody.versions = [cexV1, cexV2] ∧
    strptimeCrates cexV1.created_at = some cexD1 ∧
    strptimeCrates cexV2.created_at = some cexD2 ∧
    pubLogin cexV2.published_by = some "bob" ∧
    (cexPkg.fill_package_metadata cexEnv1).1._last_push_date = some cexD1 ∧
    (cexPkg.fill_package_metadata cexEnv1).1._last_push_author = some "alice" ∧
    ¬ cexD1 = cexD2 ∧ ¬ ("alice" : String) = "bob" := by
  decide

/-- C1 amended: when the top-level fetch returns 200 with a well-formed
body, the version-history scan runs only for a truthy target version, and it
then always records the FIRST history entry's creation timestamp and author
(the exact-match test is subsumed by the `index == 0` disjunct); with no
target version, or an empty history, the last-publish fields are left
unchanged (hence null on a fresh record). -/
theorem c1_amended (p : Package) (i : Nat) (env : AttemptEnv)
    (r : HttpResponse CrateResponseBody) (data : CrateResponseBody)
    (hty : p._package_type = some "cargo")
    (hcr : env.crate = some r) (h200 : r.status_code = 200) (hb : r.body = some data) :
    (strTruthy p._version = false →
      (runAttempt p i env).1._last_push_date = p._last_push_date ∧
      (runAttempt p i env).1._last_push_author = p._last_push_author) ∧
    (data.versions = [] →
      (runAttempt p i env).1._last_push_date = p._last_push_date ∧
      (runAttempt p i env).1._last_push_author = p._last_push_author) ∧
    (∀ v rest d, strTruthy p._version = true → data.versions = v :: rest →
      strptimeCrates v.created_at = some d →
      (runAttempt p i env).1._last_push_date = some d ∧
      (runAttempt p i env).1._last_push_author = pubLogin v.published_by) := by
  have hfst := runAttempt_200_fst p i env r data hty hcr h200 hb
  have hpush := process200_push p i data env
  have hsr := set_repo_url_misc p
    (if strTruthy data.repository then data.repository else data.homepage)
  set sr1 := (p.set_repo_url
    (if strTruthy data.repository then data.repository else data.homepage)).1 with hsr1
  refine ⟨?_, ?_, ?_⟩
  · intro hver
    have hv1 : strTruthy sr1._version = false := by rw [hsr.1, hver]
    have hav : applyVersionScan sr1 data.versions = (sr1, false) := by
      unfold applyVersionScan
      rw [hv1]
      simp
    rw [hfst, hpush.1, hpush.2, hav]
    exact ⟨hsr.2.1, hsr.2.2⟩
  · intro hvs
    have hav : (applyVersionScan sr1 data.versions).1 = sr1 := by
      unfold applyVersionScan
      rw [hvs]
      split
      · simp [versionScan]
      · rfl
    rw [hfst, hpush.1, hpush.2, hav]
    exact ⟨hsr.2.1, hsr.2.2⟩
  · intro v rest d hver hvs hd
    have hv1 : strTruthy sr1._version = true := by rw [hsr.1, hver]
    have hav : applyVersionScan sr1 data.versions =
        ({ sr1 with _last_push_date := some d,
                    _last_push_author := pubLogin v.published_by }, false) := by
      unfold applyVersionScan
      rw [hv1, hvs]
      simp [versionScan, hd]
    rw [hfst, hpush.1, hpush.2, hav]
    exact ⟨rfl, rfl⟩

/-- Closed instance of C1 (amended): with target version `2.0.0` the first
entry (`cexV1`) is the one recorded. -/
theorem c1_witness :
    (runAttempt cexPkg 0 (cexEnv1 0)).1._last_push_date = some cexD1 ∧
    (runAttempt cexPkg 0 (cexEnv1 0)).1._last_push_author = pubLogin cexV1.published_by :=
  (c1_amended cexPkg 0 (cexEnv1 0) ⟨200, some cexBody⟩ cexBody rfl rfl rfl rfl).2.2
    cexV1 [cexV2] cexD1 rfl rfl (by decide)

/-! # Event-trace lemmas -/

theorem set_repo_url_events (p : Package) (u : Option String) :
    (p.set_repo_url u).2 = [] ∨ (p.set_repo_url u).2 = [Event.warnRepoUrl] := by
  unfold Package.set_repo_url
  split
  · split
    · exact Or.inl rfl
    · exact Or.inl rfl
  · exact Or.inr rfl

theorem fetchOwners_events (p : Package) (i : Nat)
    (resp : Option (HttpResponse (List OwnerUser))) :
    (fetchOwners p i resp).2.1 = [Event.getOwners i] ∨
    (fetchOwners p i resp).2.1 = [Event.getOwners i, Event.warnOwners] := by
  unfold fetchOwners
  split
  · exact Or.inl rfl
  · split
    · split
      · exact Or.inl rfl
      · exact Or.inl rfl
    · exact Or.inr rfl

theorem fetchDownloads_events (p : Package) (i : Nat)
    (resp : Option (HttpResponse DownloadsBody)) :
    (fetchDownloads p i resp).2.1 = [Event.getDownloads i] ∨
    (fetchDownloads p i resp).2.1 = [Event.getDownloads i, Event.warnDownloads] := by
  unfold fetchDownloads
  split
  · exact Or.inl rfl
  · split
    · split
      · exact Or.inl rfl
      · exact Or.inl rfl
    · exact Or.inr rfl

/-- The events of a 200-processing decompose into the classifier's, the
owners fetch's and the downloads fetch's contributions. -/
theorem process200_events (p : Package) (i : Nat) (data : CrateResponseBody)
    (env : AttemptEnv) :
    ∃ a b c, (process200 p i data env).2.1 = a ++ b ++ c ∧
      (a = [] ∨ a = [Event.warnRepoUrl]) ∧
      (b = [] ∨ b = [Event.getOwners i] ∨ b = [Event.getOwners i, Event.warnOwners]) ∧
      (c = [] ∨ c = [Event.getDownloads i] ∨
        c = [Event.getDownloads i, Event.warnDownloads]) := by
  unfold process200
  rcases hav : applyVersionScan (p.set_repo_url (if strTruthy data.repository then
      data.repository else data.homepage)).1 data.versions with ⟨p2, b⟩
  have ha := set_repo_url_events p
    (if strTruthy data.repository then data.repository else data.homepage)
  cases b
  · rcases hfo : fetchOwners p2 i env.owners with ⟨p3, evs2, b2⟩
    have hb := fetchOwners_events p2 i env.owners
    rw [hfo] at hb
    cases b2
    · rcases hfd : fetchDownloads p3 i env.downloads with ⟨p4, evs3, b3⟩
      have hc := fetchDownloads_events p3 i env.downloads
      rw [hfd] at hc
      refine ⟨(p.set_repo_url (if strTruthy data.repository then data.repository
        else data.homepage)).2, evs2, evs3, by simp [hav, hfo, hfd], ha,
        Or.inr hb, Or.inr hc⟩
    · refine ⟨(p.set_repo_url (if strTruthy data.repository then data.repository
        else data.homepage)).2, evs2, [], by simp [hav, hfo], ha,
        Or.inr hb, Or.inl rfl⟩
  · refine ⟨(p.set_repo_url (if strTruthy data.repository then data.repository
      else data.homepage)).2, [], [], by simp [hav], ha, Or.inl rfl, Or.inl rfl⟩

/-- The events of one attempt: nothing (non-cargo), just the top-level GET,
or — exactly when that GET returned 200 with a decodable body — the
top-level GET followed by the 200-processing's events. -/
theorem runAttempt_events_shape (p : Package) (i : Nat) (e : AttemptEnv) :
    (runAttempt p i e).2.1 = [] ∨ (runAttempt p i e).2.1 = [Event.getCrate i] ∨
    (∃ r data, e.crate = some r ∧ r.status_code = 200 ∧ r.body = some data ∧
      (runAttempt p i e).2.1 = Event.getCrate i :: (process200 p i data e).2.1) := by
  by_cases hty : p._package_type = some "cargo"
  · rcases hc : e.crate with _ | r
    · right; left
      simp [runAttempt, hty, hc]
    · by_cases h200 : r.status_code = 200
      · rcases hb : r.body with _ | data
        · right; left
          simp [runAttempt, hty, hc, h200, hb]
        · right; right
          refine ⟨r, data, rfl, h200, hb, ?_⟩
          rcases hpr : process200 p i data e with ⟨q, evs, bb⟩
          cases bb
          · simp [runAttempt, hty, hc, h200, hb, hpr]
          · simp [runAttempt, hty, hc, h200, hb, hpr]
      · right; left
        simp [runAttempt, hty, hc, h200]
  · left
    simp [runAttempt, hty]

theorem process200_no_getCrate (p : Package) (i : Nat) (data : CrateResponseBody)
    (env : AttemptEnv) :
    ((process200 p i data env).2.1.countP Event.isGetCrate) = 0 := by
  rcases process200_events p i data env with ⟨a, b, c, heq, ha, hb, hc⟩
  rw [heq, List.countP_append, List.countP_append]
  rcases ha with rfl | rfl <;> rcases hb with rfl | rfl | rfl <;>
    rcases hc with rfl | rfl | rfl <;>
    simp [List.countP_cons, Event.isGetCrate]

theorem runAttempt_getCrate_count (p : Package) (i : Nat) (e : AttemptEnv) :
    ((runAttempt p i e).2.1.countP Event.isGetCrate) ≤ 1 := by
  rcases runAttempt_events_shape p i e with hs | hs | ⟨r, data, _, _, _, hs⟩ <;> rw [hs]
  · simp
  · simp [List.countP_cons, Event.isGetCrate]
  · simp [List.countP_cons, Event.isGetCrate, process200_no_getCrate p i data e]

theorem fillGo_getCrate_count (env : Nat → AttemptEnv) (fuel : Nat) :
    ∀ (i : Nat) (p : Package),
      ((fillGo env fuel i p).2.countP Event.isGetCrate) ≤ fuel := by
  induction fuel with
  | zero =>
    intro i p
    simp [fillGo]
  | succ n ih =>
    intro i p
    rcases hra : runAttempt p i (env i) with ⟨q, evs, o⟩
    have hc : evs.countP Event.isGetCrate ≤ 1 := by
      have := runAttempt_getCrate_count p i (env i)
      rw [hra] at this
      exact this
    have hrest := ih (i + 1) q
    cases o
    · simp only [fillGo, hra]
      omega
    · simp only [fillGo, hra, List.countP_append]
      omega
    · simp only [fillGo, hra, List.countP_append]
      have hw : List.countP Event.isGetCrate [Event.warnAttempt (i + 1)] = 0 := by
        simp [List.countP_cons, Event.isGetCrate]
      omega

theorem process200_secondary_mem (p : Package) (i : Nat) (data : CrateResponseBody)
    (env : AttemptEnv) (j : Nat)
    (h : Event.getOwners j ∈ (process200 p i data env).2.1 ∨
         Event.getDownloads j ∈ (process200 p i data env).2.1) : j = i := by
  rcases process200_events p i data env with ⟨a, b, c, heq, ha, hb, hc⟩
  rw [heq] at h
  rcases ha with rfl | rfl <;> rcases hb with rfl | rfl | rfl <;>
    rcases hc with rfl | rfl | rfl <;> simp_all [List.mem_append]

theorem runAttempt_secondary_mem (p : Package) (i : Nat) (e : AttemptEnv) (j : Nat)
    (h : Event.getOwners j ∈ (runAttempt p i e).2.1 ∨
         Event.getDownloads j ∈ (runAttempt p i e).2.1) :
    j = i ∧ ∃ r data, e.crate = some r ∧ r.status_code = 200 ∧ r.body = some data := by
  rcases runAttempt_events_shape p i e with hs | hs | ⟨r, data, hcr, h200, hb, hs⟩
  · rw [hs] at h
    simp at h
  · rw [hs] at h
    simp at h
  · rw [hs] at h
    have h2 : Event.getOwners j ∈ (process200 p i data e).2.1 ∨
        Event.getDownloads j ∈ (process200 p i data e).2.1 := by
      rcases h with h | h
      · rcases List.mem_cons.mp h with h3 | h3
        · exact absurd h3 (by simp)
        · exact Or.inl h3
      · rcases List.mem_cons.mp h with h3 | h3
        · exact absurd h3 (by simp)
        · exact Or.inr h3
    exact ⟨process200_secondary_mem p i data e j h2, r, data, hcr, h200, hb⟩

theorem fillGo_secondary_mem (env : Nat → AttemptEnv) (fuel : Nat) :
    ∀ (i : Nat) (p : Package) (j : Nat),
      (Event.getOwners j ∈ (fillGo env fuel i p).2 ∨
       Event.getDownloads j ∈ (fillGo env fuel i p).2) →
      ∃ r data, (env j).crate = some r ∧ r.status_code = 200 ∧ r.body = some data := by
  induction fuel with
  | zero =>
    intro i p j h
    simp [fillGo] at h
  | succ n ih =>
    intro i p j h
    rcases hra : runAttempt p i (env i) with ⟨q, evs, o⟩
    have hmem : (Event.getOwners j ∈ evs ∨ Event.getDownloads j ∈ evs) →
        ∃ r data, (env j).crate = some r ∧ r.status_code = 200 ∧ r.body = some data := by
      intro hin
      have := runAttempt_secondary_mem p i (env i) j (by rw [hra]; exact hin)
      rcases this with ⟨rfl, hrest⟩
      exact hrest
    cases o
    · rw [fillGo, hra] at h
      exact hmem h
    · rw [fillGo, hra] at h
      simp only [List.mem_append] at h
      rcases h with h | h
      · rcases h with h | h
        · exact hmem (Or.inl h)
        · exact ih (i + 1) q j (Or.inl h)
      · rcases h with h | h
        · exact hmem (Or.inr h)
        · exact ih (i + 1) q j (Or.inr h)
    · rw [fillGo, hra] at h
      simp only [List.mem_append, List.mem_singleton] at h
      rcases h with h | h
      · rcases h with (h | h) | h
        · exact hmem (Or.inl h)
        · exact absurd h (by simp)
        · exact ih (i + 1) q j (Or.inl h)
      · rcases h with (h | h) | h
        · exact hmem (Or.inr h)
        · exact absurd h (by simp)
        · exact ih (i + 1) q j (Or.inr h)

/-- A secondary request event (`getOwners idx` or `getDownloads idx`) occurs
in a 200-processing at most once, and only when `idx` is the attempt's own
index. -/
theorem process200_target_count (p : Package) (i : Nat) (data : CrateResponseBody)
    (env : AttemptEnv) (tgt : Event) (idx : Nat)
    (htgt : tgt = Event.getOwners idx ∨ tgt = Event.getDownloads idx) :
    ((process200 p i data env).2.1.countP (fun ev => decide (ev = tgt))) ≤
      if idx = i then 1 else 0 := by
  rcases process200_events p i data env with ⟨a, b, c, heq, ha, hb, hc⟩
  rw [heq, List.countP_append, List.countP_append]
  clear heq
  rcases htgt with rfl | rfl <;>
    rcases ha with rfl | rfl <;> rcases hb with rfl | rfl | rfl <;>
    rcases hc with rfl | rfl | rfl <;>
    simp [List.countP_cons] <;> split_ifs <;> omega

theorem runAttempt_target_count (p : Package) (i : Nat) (e : AttemptEnv)
    (tgt : Event) (idx : Nat)
    (htgt : tgt = Event.getOwners idx ∨ tgt = Event.getDownloads idx) :
    ((runAttempt p i e).2.1.countP (fun ev => decide (ev = tgt))) ≤
      if idx = i then 1 else 0 := by
  rcases runAttempt_events_shape p i e with hs | hs | ⟨r, data, _, _, _, hs⟩ <;> rw [hs]
  · simp
  · rcases htgt with rfl | rfl <;> simp [List.countP_cons]
  · have h2 := process200_target_count p i data e tgt idx htgt
    have hcr : (decide (Event.getCrate i = tgt)) = false := by
      rcases htgt with rfl | rfl <;> simp
    simp [List.countP_cons, hcr]
    omega

theorem fillGo_target_count (env : Nat → AttemptEnv) (fuel : Nat) :
    ∀ (i : Nat) (p : Package) (tgt : Event) (idx : Nat),
      (tgt = Event.getOwners idx ∨ tgt = Event.getDownloads idx) →
      ((fillGo env fuel i p).2.countP (fun ev => decide (ev = tgt))) ≤
        if idx < i then 0 else 1 := by
  induction fuel with
  | zero =>
    intro i p tgt idx htgt
    simp [fillGo]
  | succ n ih =>
    intro i p tgt idx htgt
    rcases hra : runAttempt p i (env i) with ⟨q, evs, o⟩
    have hev : evs.countP (fun ev => decide (ev = tgt)) ≤ if idx = i then 1 else 0 := by
      have := runAttempt_target_count p i (env i) tgt idx htgt
      rw [hra] at this
      exact this
    have hrest := ih (i + 1) q tgt idx htgt
    have hw : List.countP (fun ev => decide (ev = tgt)) [Event.warnAttempt (i + 1)] = 0 := by
      rcases htgt with rfl | rfl <;> simp [List.countP_cons]
    cases o
    · simp only [fillGo, hra]
      split_ifs at hev ⊢ <;> omega
    · simp only [fillGo, hra, List.countP_append]
      split_ifs at hev hrest ⊢ <;> omega
    · simp only [fillGo, hra, List.countP_append]
      split_ifs at hev hrest ⊢ <;> omega

theorem fillGo_all_raised (env : Nat → AttemptEnv) (p : Package)
    (hty : p._package_type = some "cargo") (hcr : ∀ k, (env k).crate = none) :
    ∀ (fuel i : Nat), fillGo env fuel i p = (p, raisedTrace fuel i) := by
  intro fuel
  induction fuel with
  | zero =>
    intro i
    rfl
  | succ n ih =>
    intro i
    have e : runAttempt p i (env i) = (p, [Event.getCrate i], AttemptOutcome.raised) := by
      simp [runAttempt, hty, hcr i]
    simp [fillGo, e, ih, raisedTrace]

theorem fillGo_all_non200 (env : Nat → AttemptEnv) (p : Package)
    (hty : p._package_type = some "cargo")
    (hcr : ∀ k, ∃ r, (env k).crate = some r ∧ ¬ r.status_code = 200) :
    ∀ (fuel i : Nat), fillGo env fuel i p = (p, silentTrace fuel i) := by
  intro fuel
  induction fuel with
  | zero =>
    intro i
    rfl
  | succ n ih =>
    intro i
    obtain ⟨r, hr, hs⟩ := hcr i
    have e : runAttempt p i (env i) = (p, [Event.getCrate i], AttemptOutcome.fellThrough) := by
      simp [runAttempt, hty, hr, hs]
    simp [fillGo, e, ih, silentTrace]

/-! # Claim C3 -/

/-- C3 counterexample: a cargo record against a registry answering 500 (a
non-200 response, no exception) on every top-level fetch.  All three
attempts issue the GET and are retried, but the trace contains NO
attempt-level warning at all — a non-200 top-level response is retried
silently, contrary to the claim that every non-200 is logged with the
attempt count. -/
theorem c3_counterexample :
    (cexEnv500 0).crate = some { status_code := 500, body := none } ∧
    cexPkgNoVer.fill_package_metadata cexEnv500 =
      (cexPkgNoVer, [Event.getCrate 0, Event.getCrate 1, Event.getCrate 2]) := by
  decide

/-- C3 amended: the enrichment makes at most `MAX_REGISTRY_FAILED_REQUESTS`
(3) top-level fetches; an attempt whose registry interaction raises
(network error — and likewise any other exception) is caught, logged with
the 1-based attempt count and retried, the call returning normally with the
record untouched; but an attempt whose top-level fetch merely returns
non-200 is retried silently, with no warning logged. -/
theorem c3_amended (p : Package) (env : Nat → AttemptEnv) :
    ((p.fill_package_metadata env).2.countP Event.isGetCrate ≤
      MAX_REGISTRY_FAILED_REQUESTS) ∧
    (p._package_type = some "cargo" → (∀ k, (env k).crate = none) →
      p.fill_package_metadata env =
        (p, [Event.getCrate 0, Event.warnAttempt 1, Event.getCrate 1,
             Event.warnAttempt 2, Event.getCrate 2, Event.warnAttempt 3])) ∧
    (p._package_type = some "cargo" →
      (∀ k, ∃ r, (env k).crate = some r ∧ ¬ r.status_code = 200) →
      p.fill_package_metadata env =
        (p, [Event.getCrate 0, Event.getCrate 1, Event.getCrate 2])) := by
  refine ⟨fillGo_getCrate_count env MAX_REGISTRY_FAILED_REQUESTS 0 p, ?_, ?_⟩
  · intro hty h
    exact fillGo_all_raised env p hty h MAX_REGISTRY_FAILED_REQUESTS 0
  · intro hty h
    exact fillGo_all_non200 env p hty h MAX_REGISTRY_FAILED_REQUESTS 0

/-- Closed instance of C3 (amended): a network failure on every attempt
yields exactly three warnings carrying the attempt counts 1, 2, 3, and the
untouched record. -/
theorem c3_witness :
    cexPkgNoVer.fill_package_metadata (fun _ => ⟨none, none, none⟩) =
      (cexPkgNoVer, [Event.getCrate 0, Event.warnAttempt 1, Event.getCrate 1,
                     Event.warnAttempt 2, Event.getCrate 2, Event.warnAttempt 3]) :=
  (c3_amended cexPkgNoVer (fun _ => ⟨none, none, none⟩)).2.1 rfl (fun _ => rfl)

/-! # Claim C4 -/

/-- C4 counterexample: every top-level fetch returns HTTP 200, but with a
body on which JSON decoding raises.  The 200 response does NOT terminate the
retry loop — three top-level fetches happen — and the owners and downloads
requests are never issued at all despite three successful (200) top-level
fetches, contrary to the claim. -/
theorem c4_counterexample :
    (cexEnv200Bad 0).crate = some { status_code := 200, body := none } ∧
    (cexEnv200Bad 1).crate = some { status_code := 200, body := none } ∧
    (cexEnv200Bad 2).crate = some { status_code := 200, body := none } ∧
    cexPkgNoVer.fill_package_metadata cexEnv200Bad =
      (cexPkgNoVer, [Event.getCrate 0, Event.warnAttempt 1, Event.getCrate 1,
                     Event.warnAttempt 2, Event.getCrate 2, Event.warnAttempt 3]) := by
  decide

/-- C4 amended: (a) an owners or downloads request for attempt `j` is
issued only when attempt `j`'s top-level fetch returned 200 with a
decodable body; (b) each of the two secondary requests is issued at most
once per attempt index over the whole enrichment call; (c) an attempt whose
processing completes without an exception (`break` reached) terminates the
retry loop immediately — a 200 response alone does not. -/
theorem c4_amended :
    (∀ (p : Package) (env : Nat → AttemptEnv) (j : Nat),
      (Event.getOwners j ∈ (p.fill_package_metadata env).2 ∨
       Event.getDownloads j ∈ (p.fill_package_metadata env).2) →
      ∃ r data, (env j).crate = some r ∧ r.status_code = 200 ∧ r.body = some data) ∧
    (∀ (p : Package) (env : Nat → AttemptEnv) (j : Nat),
      ((p.fill_package_metadata env).2.countP
        (fun ev => decide (ev = Event.getOwners j))) ≤ 1 ∧
      ((p.fill_package_metadata env).2.countP
        (fun ev => decide (ev = Event.getDownloads j))) ≤ 1) ∧
    (∀ (p : Package) (env : Nat → AttemptEnv) (i fuel : Nat),
      (runAttempt p i (env i)).2.2 = AttemptOutcome.broke →
      fillGo env (fuel + 1) i p =
        ((runAttempt p i (env i)).1, (runAttempt p i (env i)).2.1)) := by
  refine ⟨?_, ?_, ?_⟩
  · intro p env j h
    exact fillGo_secondary_mem env MAX_REGISTRY_FAILED_REQUESTS 0 p j h
  · intro p env j
    constructor
    · have := fillGo_target_count env MAX_REGISTRY_FAILED_REQUESTS 0 p
        (Event.getOwners j) j (Or.inl rfl)
      simpa using this
    · have := fillGo_target_count env MAX_REGISTRY_FAILED_REQUESTS 0 p
        (Event.getDownloads j) j (Or.inr rfl)
      simpa using this
  · intro p env i fuel h
    rcases hra : runAttempt p i (env i) with ⟨q, evs, o⟩
    rw [hra] at h
    simp only at h
    subst h
    simp [fillGo, hra]

/-- Closed instance of C4 (amended), part (a): the owners request of
attempt 0 against `cexEnv1` was issued, so that attempt's top-level fetch
returned 200 with a decodable body. -/
theorem c4_witness :
    ∃ r data, (cexEnv1 0).crate = some r ∧ r.status_code = 200 ∧ r.body = some data :=
  c4_amended.1 cexPkg cexEnv1 0 (Or.inl (by decide))

/-! # Claim C8 -/

theorem repoInv_of_eq (p q : Package) (ho : q._repo_owner = p._repo_owner)
    (hn : q._repo_name = p._repo_name) (h : RepoInv p) : RepoInv q := by
  rcases h with ⟨h1, h2⟩ | ⟨u, o, r, hm, h1, h2⟩
  · exact Or.inl ⟨ho.trans h1, hn.trans h2⟩
  · exact Or.inr ⟨u, o, r, hm, ho.trans h1, hn.trans h2⟩

theorem set_repo_url_repoInv (p : Package) (u : Option String) (h : RepoInv p) :
    RepoInv (p.set_repo_url u).1 := by
  unfold Package.set_repo_url
  split
  · rcases hm : repoUrlMatchL ((u.getD "").data) with _ | ⟨o, r⟩
    · simp only [hm]
      exact repoInv_of_eq p _ rfl rfl h
    · simp only [hm]
      exact Or.inr ⟨(u.getD "").data, o, r, hm, rfl, rfl⟩
  · exact h

theorem from_purl_repo (p : Package) (purl : String) (d : Option SbomPackage) :
    (p.from_purl purl d)._repo_owner = p._repo_owner ∧
    (p.from_purl purl d)._repo_name = p._repo_name := by
  unfold Package.from_purl
  constructor <;> (repeat' split) <;> (try rfl) <;> (dsimp only; split <;> rfl)

theorem process200_repoInv (p : Package) (i : Nat) (data : CrateResponseBody)
    (env : AttemptEnv) (h : RepoInv p) : RepoInv (process200 p i data env).1 := by
  unfold process200
  have h1 : RepoInv (p.set_repo_url (if strTruthy data.repository then
      data.repository else data.homepage)).1 := set_repo_url_repoInv _ _ h
  rcases hav : applyVersionScan (p.set_repo_url (if strTruthy data.repository then
      data.repository else data.homepage)).1 data.versions with ⟨p2, b⟩
  have h2 : RepoInv p2 := by
    have hr := applyVersionScan_repo (p.set_repo_url (if strTruthy data.repository then
      data.repository else data.homepage)).1 data.versions
    rw [hav] at hr
    exact repoInv_of_eq _ _ hr.1 hr.2 h1
  cases b
  · rcases hfo : fetchOwners p2 i env.owners with ⟨p3, evs2, b2⟩
    have h3 : RepoInv p3 := by
      have hr := fetchOwners_misc p2 i env.owners
      rw [hfo] at hr
      exact repoInv_of_eq _ _ hr.2.2.1 hr.2.2.2 h2
    cases b2
    · rcases hfd : fetchDownloads p3 i env.downloads with ⟨p4, evs3, b3⟩
      have h4 : RepoInv p4 := by
        have hr := fetchDownloads_misc p3 i env.downloads
        rw [hfd] at hr
        exact repoInv_of_eq _ _ hr.2.2.1 hr.2.2.2 h3
      simp only [hav, hfo, hfd]
      exact h4
    · simp only [hav, hfo]
      exact h3
  · simp only [hav]
    exact h2

theorem runAttempt_repoInv (p : Package) (i : Nat) (e : AttemptEnv)
    (h : RepoInv p) : RepoInv (runAttempt p i e).1 := by
  by_cases hty : p._package_type = some "cargo"
  · rcases hc : e.crate with _ | r
    · simpa [runAttempt, hty, hc] using h
    · by_cases h200 : r.status_code = 200
      · rcases hb : r.body with _ | data
        · simpa [runAttempt, hty, hc, h200, hb] using h
        · have h2 := process200_repoInv p i data e h
          rcases hpr : process200 p i data e with ⟨q, evs, bb⟩
          rw [hpr] at h2
          cases bb
          · simpa [runAttempt, hty, hc, h200, hb, hpr] using h2
          · simpa [runAttempt, hty, hc, h200, hb, hpr] using h2
      · simpa [runAttempt, hty, hc, h200] using h
  · simpa [runAttempt, hty] using h

theorem fillGo_repoInv (env : Nat → AttemptEnv) (fuel : Nat) :
    ∀ (i : Nat) (p : Package), RepoInv p → RepoInv (fillGo env fuel i p).1 := by
  induction fuel with
  | zero =>
    intro i p h
    exact h
  | succ n ih =>
    intro i p h
    have h2 := runAttempt_repoInv p i (env i) h
    rcases hra : runAttempt p i (env i) with ⟨q, evs, o⟩
    rw [hra] at h2
    cases o
    · simpa only [fillGo, hra] using h2
    · simpa only [fillGo, hra] using ih (i + 1) q h2
    · simpa only [fillGo, hra] using ih (i + 1) q h2

/-- C8: the repository-derivation invariant — owner and name are unset, or
were set together by a successful `REPO_URL_REGEX` match of a URL that was
passed to `set_repo_url` — holds initially and is preserved by every
operation on a record: purl parsing, owner accumulation, repository-URL
classification and the whole enrichment call. -/
theorem c8_repo_invariant :
    RepoInv Package.init ∧
    (∀ (p : Package) (purl : String) (d : Option SbomPackage),
      RepoInv p → RepoInv (p.from_purl purl d)) ∧
    (∀ (p : Package) (o : String), RepoInv p → RepoInv (p.add_lib_owner o)) ∧
    (∀ (p : Package) (u : Option String), RepoInv p → RepoInv (p.set_repo_url u).1) ∧
    (∀ (p : Package) (env : Nat → AttemptEnv), RepoInv p →
      RepoInv (p.fill_package_metadata env).1) := by
  refine ⟨Or.inl ⟨rfl, rfl⟩, ?_, ?_, ?_, ?_⟩
  · intro p purl d h
    have hr := from_purl_repo p purl d
    exact repoInv_of_eq p _ hr.1 hr.2 h
  · intro p o h
    exact repoInv_of_eq p _ rfl rfl h
  · intro p u h
    exact set_repo_url_repoInv p u h
  · intro p env h
    exact fillGo_repoInv env MAX_REGISTRY_FAILED_REQUESTS 0 p h

/-- Closed instance of C8: a full enrichment that classified
`https://github.com/serde-rs/serde` keeps the invariant. -/
theorem c8_witness : RepoInv (cexPkg.fill_package_metadata cexEnv1).1 :=
  c8_repo_invariant.2.2.2.2 cexPkg cexEnv1 (Or.inl ⟨rfl, rfl⟩)

/-! # Claim C9 -/

/-- C9: the pipeline emits exactly one row per input package, in input
order — the i-th row is the processing of the i-th package — every row has
the full 10 columns (absent data is a `none` cell), and enrichment can
never remove a row (`processPackage` is total, all registry failures being
values of the environment). -/
theorem c9_one_row_per_package (inputs : List (SbomPackage × (Nat → AttemptEnv))) :
    (runPipeline inputs).length = inputs.length ∧
    (∀ (i : Nat) (h1 : i < inputs.length) (h2 : i < (runPipeline inputs).length),
      (runPipeline inputs).get ⟨i, h2⟩ =
        processPackage (inputs.get ⟨i, h1⟩).1 (inputs.get ⟨i, h1⟩).2) ∧
    (∀ row ∈ runPipeline inputs, row.length = 10) := by
  refine ⟨by simp [runPipeline], ?_, ?_⟩
  · intro i h1 h2
    simp [runPipeline]
  · intro row hrow
    simp only [runPipeline, List.mem_map] at hrow
    obtain ⟨pe, _, hpe⟩ := hrow
    rw [← hpe]
    rfl

/-- Closed instance of C9: a two-package SBOM (one unresolvable purl, one
cargo package against an all-failing registry) yields exactly its two rows
in order. -/
theorem c9_witness :
    (runPipeline [({ purl := "not-a-purl", version := none },
                   fun _ => ⟨none, none, none⟩),
                  ({ purl := "pkg:cargo/serde@1.0.0", version := none },
                   fun _ => ⟨none, none, none⟩)]).length = 2 ∧
    (runPipeline [({ purl := "not-a-purl", version := none },
                   fun _ => ⟨none, none, none⟩),
                  ({ purl := "pkg:cargo/serde@1.0.0", version := none },
                   fun _ => ⟨none, none, none⟩)]).get ⟨0, by simp [runPipeline]⟩ =
      processPackage { purl := "not-a-purl", version := none }
        (fun _ => ⟨none, none, none⟩) :=
  ⟨(c9_one_row_per_package _).1, (c9_one_row_per_package _).2.1 0 (by simp) (by simp [runPipeline])⟩
